import Mathlib

/-!
Verification of the line parser and reading protocol of `SQM_GUI.py`
(a serial GUI that requests `LUX:<value>,SQM:<value>` lines from a sensor).

Strings are modelled as Lean `String` (a wrapper around `List Char`); the
Python string operations used by the source (`in`, `split(sep, 1)`,
`strip()`, `startswith`, `upper()`, `float()`) are embedded as executable
functions on `List Char` below.  The model restricts itself to ASCII
behaviour: `strip()` strips the six ASCII whitespace characters, `upper()`
is ASCII uppercasing, and `float()` acceptance follows CPython's decimal
float grammar over ASCII (sign, digits with underscore grouping, decimal
point, exponent, and the case-insensitive literals `inf`, `infinity`,
`nan`).
-/

namespace SQMGui

/-- The whitespace characters stripped by Python `str.strip()` (ASCII part:
space, tab, newline, carriage return, vertical tab, form feed). -/
def isPyWs (c : Char) : Bool :=
  c = ' ' || c = '\t' || c = '\n' || c = '\r' || c = '\x0b' || c = '\x0c'

/-- Python `str.strip()` on a list of characters: drop whitespace from both
ends. -/
def pyStripL (l : List Char) : List Char :=
  ((l.dropWhile isPyWs).reverse.dropWhile isPyWs).reverse

/-- Python `str.strip()`. -/
def pyStrip (s : String) : String :=
  ⟨pyStripL s.data⟩

/-- Python substring containment `sub in l` (`True` for the empty `sub`). -/
def containsSubL (sub : List Char) : List Char → Bool
  | [] => sub.isPrefixOf ([] : List Char)
  | c :: t => sub.isPrefixOf (c :: t) || containsSubL sub t

/-- Split at the first occurrence of `sep`, as in Python `s.split(sep, 1)`:
`some (before, after)` when `sep` occurs, `none` when it does not (in which
case Python returns the one-element list `[s]`). -/
def splitOnceL (sep : Char) : List Char → Option (List Char × List Char)
  | [] => none
  | c :: t =>
    if c = sep then some ([], t)
    else
      match splitOnceL sep t with
      | none => none
      | some (a, b) => some (c :: a, b)

/-- Python `str.upper()` (ASCII model). -/
def upperL (l : List Char) : List Char :=
  l.map Char.toUpper

/-- The text after the first `':'`, i.e. Python `part.split(":", 1)[1]`.
In `parse_lux_sqm` this is only evaluated after the part passed a
`startswith("LUX:")`/`startswith("SQM:")` check, so a colon is always
present and the `none` default is unreachable there. -/
def afterFirstColon (l : List Char) : List Char :=
  match splitOnceL ':' l with
  | some p => p.2
  | none => []

/-! ### CPython `float()` acceptance

`float(s)` raises `ValueError` exactly when `s` (after stripping
whitespace) fails the grammar below; it never raises on overflow (huge
exponents yield `inf`/`0.0`).  Note that `float` accepts the special
literals `nan`, `inf` and `infinity` in any case, with an optional sign. -/

/-- Consume one optional leading `+`/`-`. -/
def eatSign : List Char → List Char
  | c :: t => if c = '+' ∨ c = '-' then t else c :: t
  | [] => []

/-- After an initial digit: consume further digits, allowing a single
underscore between two digits (CPython digit grouping). -/
def eatDigitsUnd : List Char → List Char
  | [] => []
  | c :: t =>
    if c.isDigit then eatDigitsUnd t
    else if c = '_' then
      match t with
      | c2 :: t2 => if c2.isDigit then eatDigitsUnd t2 else c :: t
      | [] => c :: t
    else c :: t

/-- Consume a digit part (at least one digit, underscores allowed between
digits); `none` if no leading digit. -/
def eatDigitpart (l : List Char) : Option (List Char) :=
  match l with
  | c :: t => if c.isDigit then some (eatDigitsUnd t) else none
  | [] => none

/-- Consume the mantissa: `digits [. [digits]] | . digits`
(at least one digit overall). -/
def eatDecimal (l : List Char) : Option (List Char) :=
  match eatDigitpart l with
  | some rest =>
    match rest with
    | '.' :: t => some ((eatDigitpart t).getD t)
    | _ => some rest
  | none =>
    match l with
    | '.' :: t => eatDigitpart t
    | _ => none

/-- Consume an optional exponent `e|E [sign] digits`. -/
def eatExp : List Char → Option (List Char)
  | [] => some []
  | c :: t =>
    if c = 'e' ∨ c = 'E' then eatDigitpart (eatSign t)
    else some (c :: t)

/-- Case-insensitive comparison of `l` against a lowercase word. -/
def lowerEq (l w : List Char) : Bool :=
  l.map Char.toLower = w

/-- CPython `float()` acceptance on an already-stripped string. -/
def pyFloatCoreL (l : List Char) : Bool :=
  let l1 := eatSign l
  if lowerEq l1 "inf".data || lowerEq l1 "infinity".data || lowerEq l1 "nan".data then
    true
  else
    match eatDecimal l1 with
    | some rest =>
      match eatExp rest with
      | some [] => true
      | _ => false
    | none => false

/-- Whether Python `float(s)` succeeds (it strips whitespace itself). -/
def pyFloatAccepts (s : String) : Bool :=
  pyFloatCoreL (pyStripL s.data)

/-! ### The line parser (`parse_lux_sqm`, `SQM_GUI.py` lines 116-146) -/

/-- `parse_lux_sqm(line)`: validates and extracts the two value texts from
`LUX:<value>,SQM:<value>`.  `Except.error` models `raise ValueError(msg)`.
Since `line.split(",", 1)` yields at most two parts, the
`len(parts) != 2` check fails exactly when there is no comma, with
`len(parts)` equal to 1.  The `float(...)` validation calls are modelled by
`pyFloatCoreL` on the (re-)stripped candidate; the `ValueError` message text
of CPython's `float` is abbreviated. -/
def parse_lux_sqm (line : String) : Except String (String × String) :=
  if !containsSubL "LUX:".data line.data || !containsSubL "SQM:".data line.data then
    .error ("No LUX:/SQM: markers in line: " ++ line)
  else
    match splitOnceL ',' line.data with
    | none => .error ("Wrong number of fields (expected 2, got 1). Line: " ++ line)
    | some (p1, p2) =>
      let lux_part := pyStripL p1
      let sqm_part := pyStripL p2
      if !("LUX:".data.isPrefixOf lux_part) || !("SQM:".data.isPrefixOf sqm_part) then
        .error ("Line does not start with LUX: and SQM:. Line: " ++ line)
      else
        let lux_str := pyStripL (afterFirstColon lux_part)
        let sqm_str := pyStripL (afterFirstColon sqm_part)
        if !pyFloatCoreL (pyStripL lux_str) then
          .error ("could not convert string to float: " ++ String.mk lux_str)
        else if upperL sqm_str = "NAN".data then
          .ok (String.mk lux_str, String.mk sqm_str)
        else if !pyFloatCoreL (pyStripL sqm_str) then
          .error ("could not convert string to float: " ++ String.mk sqm_str)
        else
          .ok (String.mk lux_str, String.mk sqm_str)

/-- The lux candidate of a line: the trimmed text after the first colon of
the first comma-separated part, recomputed exactly as `parse_lux_sqm`
computes `lux_str` (when the line has no comma, the first part is the whole
line, matching Python `split`). -/
def luxCandidate (line : String) : String :=
  let p1 := ((splitOnceL ',' line.data).map Prod.fst).getD line.data
  ⟨pyStripL (afterFirstColon (pyStripL p1))⟩

/-- Whether an `Except` result is a success. -/
def exceptOk {ε α : Type} : Except ε α → Bool
  | .ok _ => true
  | .error _ => false

/-! ### A simple grammar for `<realnumber>`

The spec's valid lines carry plain decimal reals (`123.4`, `5.6`, `0.01`).
`isSimpleRealL` recognises an optional sign followed by digits with an
optional fractional part — a subset of what CPython `float()` accepts, used
as the hypothesis "the field is numeric text". -/
def simpleRealBody (l1 : List Char) : Bool :=
  match splitOnceL '.' l1 with
  | none => !l1.isEmpty && l1.all Char.isDigit
  | some (ip, fp) => !ip.isEmpty && !fp.isEmpty && ip.all Char.isDigit && fp.all Char.isDigit

/-- An optional sign, then digits with an optional fractional part. -/
def isSimpleRealL (l : List Char) : Bool :=
  simpleRealBody (eatSign l)

/-- String version of `isSimpleRealL`. -/
def isSimpleReal (s : String) : Bool :=
  isSimpleRealL s.data

/-! ### The reading protocol client (`get_reading`, `SQM_GUI.py` lines 62-113)

The GUI state is the three display `StringVar`s; the transport is modelled
by the decoded text `resp` that `ser.readline().decode("utf-8",
errors="ignore")` would return (empty on timeout).  The outcome records the
bytes written to the wire, whether a read was issued, and the dialogs
shown.  Buffer resets, debug prints and the `serial.SerialException`
branch (a transport fault, not expressible over a pure response value) are
outside the model. -/

structure SerialConn where
  is_open : Bool
  deriving DecidableEq

structure GuiState where
  raw_var : String
  lux_var : String
  sqm_var : String
  deriving DecidableEq

inductive GuiMsg where
  | warnNotConnected
  | warnTimeout
  | errParse (msg : String)
  deriving DecidableEq

structure ReadingOutcome where
  written : List Nat
  didRead : Bool
  msgs : List GuiMsg
  gui : GuiState
  deriving DecidableEq

/-- `get_reading()`: fail fast when not connected; otherwise write `b"R\n"`
(bytes `[82, 10]`), read one line, and either report a timeout (empty
line), a parse failure, or display the parsed values. -/
def get_reading (ser : Option SerialConn) (resp : String) (g : GuiState) : ReadingOutcome :=
  match ser with
  | none => ⟨[], false, [.warnNotConnected], g⟩
  | some c =>
    if c.is_open = false then
      ⟨[], false, [.warnNotConnected], g⟩
    else
      let line := pyStrip resp
      if line = "" then
        ⟨[82, 10], true, [.warnTimeout], ⟨"<no data>", "--", "--"⟩⟩
      else
        match parse_lux_sqm line with
        | .ok (l, s) => ⟨[82, 10], true, [], ⟨line, l, s⟩⟩
        | .error e => ⟨[82, 10], true, [.errParse e], ⟨line, "--", "--"⟩⟩

/-! ### List-level helper lemmas -/

lemma dropWhile_append_all {p : Char → Bool} (w m : List Char)
    (h : ∀ c ∈ w, p c = true) :
    (w ++ m).dropWhile p = m.dropWhile p := by
  induction w with
  | nil => rfl
  | cons c t ih =>
    simp only [List.cons_append, List.dropWhile_cons, h c (by simp)]
    exact ih (fun x hx => h x (by simp [hx]))

lemma dropWhile_of_all_false {p : Char → Bool} (l : List Char)
    (h : ∀ c ∈ l, p c = false) : l.dropWhile p = l := by
  cases l with
  | nil => rfl
  | cons c t => simp [List.dropWhile_cons, h c (by simp)]

lemma pyStripL_sandwich (w1 w2 m : List Char)
    (h1 : ∀ x ∈ w1, isPyWs x = true) (h2 : ∀ x ∈ w2, isPyWs x = true)
    (hne : m ≠ [])
    (hh : ∀ x, m.head? = some x → isPyWs x = false)
    (hl : ∀ x, m.reverse.head? = some x → isPyWs x = false) :
    pyStripL (w1 ++ m ++ w2) = m := by
  obtain ⟨c, m1, hm⟩ : ∃ c m1, m = c :: m1 := by
    cases m with
    | nil => exact absurd rfl hne
    | cons c m1 => exact ⟨c, m1, rfl⟩
  obtain ⟨d, m2, hr⟩ : ∃ d m2, m.reverse = d :: m2 := by
    cases hrm : m.reverse with
    | nil => exact absurd (List.reverse_eq_nil_iff.mp hrm) hne
    | cons d m2 => exact ⟨d, m2, rfl⟩
  have hc : isPyWs c = false := hh c (by rw [hm]; rfl)
  have hd : isPyWs d = false := hl d (by rw [hr]; rfl)
  have step1 : (w1 ++ m ++ w2).dropWhile isPyWs = m ++ w2 := by
    rw [List.append_assoc, dropWhile_append_all w1 _ h1, hm, List.cons_append,
      List.dropWhile_cons, hc]
    simp
  have h2r : ∀ x ∈ w2.reverse, isPyWs x = true :=
    fun x hx => h2 x (List.mem_reverse.mp hx)
  unfold pyStripL
  rw [step1, List.reverse_append, dropWhile_append_all _ _ h2r, hr,
    List.dropWhile_cons, hd]
  simp only [Bool.false_eq_true, if_false]
  rw [← hr, List.reverse_reverse]

lemma pyStripL_of_no_ws (l : List Char) (h : ∀ c ∈ l, isPyWs c = false) :
    pyStripL l = l := by
  unfold pyStripL
  rw [dropWhile_of_all_false l h,
    dropWhile_of_all_false _ (fun c hc => h c (List.mem_reverse.mp hc)),
    List.reverse_reverse]

lemma splitOnceL_append (sep : Char) (x y : List Char)
    (hx : ∀ c ∈ x, c ≠ sep) :
    splitOnceL sep (x ++ sep :: y) = some (x, y) := by
  induction x with
  | nil => simp [splitOnceL]
  | cons c t ih =>
    have hc : c ≠ sep := hx c (by simp)
    simp [splitOnceL, hc, ih (fun a ha => hx a (by simp [ha]))]

lemma splitOnceL_eq_none (sep : Char) (l : List Char)
    (h : ∀ c ∈ l, c ≠ sep) : splitOnceL sep l = none := by
  induction l with
  | nil => rfl
  | cons c t ih => simp [splitOnceL, h c (by simp), ih (fun a ha => h a (by simp [ha]))]

lemma splitOnceL_eq_some (sep : Char) : ∀ (l a b : List Char),
    splitOnceL sep l = some (a, b) → l = a ++ sep :: b ∧ ∀ c ∈ a, c ≠ sep := by
  intro l
  induction l with
  | nil => intro a b h; exact absurd h (by simp [splitOnceL])
  | cons c t ih =>
    intro a b h
    simp only [splitOnceL] at h
    split at h
    · rename_i hc
      injection h with h
      injection h with h1 h2
      subst h1; subst h2; subst hc
      exact ⟨rfl, by simp⟩
    · rename_i hc
      cases hsp : splitOnceL sep t with
      | none => rw [hsp] at h; exact absurd h (by simp)
      | some ab =>
        obtain ⟨a', b'⟩ := ab
        rw [hsp] at h
        injection h with h
        injection h with h1 h2
        subst h1; subst h2
        obtain ⟨hteq, hmem⟩ := ih a' b' hsp
        subst hteq
        refine ⟨by simp, ?_⟩
        intro x hx
        rcases List.mem_cons.mp hx with rfl | hx
        · exact hc
        · exact hmem x hx

lemma prefixOf_append_self : ∀ (l r : List Char), l.isPrefixOf (l ++ r) = true
  | [], _ => by simp [List.isPrefixOf]
  | c :: t, r => by simp [List.isPrefixOf, prefixOf_append_self t r]

lemma containsSubL_embedded (sub : List Char) : ∀ (pre post : List Char),
    containsSubL sub (pre ++ (sub ++ post)) = true := by
  intro pre
  induction pre with
  | nil =>
    intro post
    simp only [List.nil_append]
    cases hs : sub ++ post with
    | nil =>
      have hsub : sub = [] := by
        cases sub with
        | nil => rfl
        | cons a b => simp at hs
      subst hsub; rfl
    | cons c t =>
      have h1 : sub.isPrefixOf (sub ++ post) = true := prefixOf_append_self sub post
      rw [hs] at h1
      simp only [containsSubL, h1, Bool.true_or]
  | cons c t ih =>
    intro post
    show containsSubL sub (c :: (t ++ (sub ++ post))) = true
    simp only [containsSubL]
    rw [ih post]
    simp

/-! ### Character-class lemmas -/

lemma ws_char_cases (c : Char) (h : isPyWs c = true) :
    c = ' ' ∨ c = '\t' ∨ c = '\n' ∨ c = '\r' ∨ c = '\x0b' ∨ c = '\x0c' := by
  simp only [isPyWs, Bool.or_eq_true, decide_eq_true_eq] at h
  tauto

lemma ws_ne_comma (c : Char) (h : isPyWs c = true) : c ≠ ',' := by
  rcases ws_char_cases c h with rfl|rfl|rfl|rfl|rfl|rfl <;> decide

lemma not_ws_of_class (c : Char)
    (h : c.isDigit = true ∨ c = '+' ∨ c = '-' ∨ c = '.') : isPyWs c = false := by
  cases hw : isPyWs c with
  | false => rfl
  | true =>
    exfalso
    rcases ws_char_cases c hw with rfl|rfl|rfl|rfl|rfl|rfl <;>
      rcases h with h|h|h|h <;> exact absurd h (by decide)

lemma ne_comma_of_class (c : Char)
    (h : c.isDigit = true ∨ c = '+' ∨ c = '-' ∨ c = '.') : c ≠ ',' := by
  intro hc; subst hc
  rcases h with h|h|h|h <;> exact absurd h (by decide)

lemma upper_nan_char_not_ws (c : Char) (h : c.toUpper = 'N' ∨ c.toUpper = 'A') :
    isPyWs c = false ∧ c ≠ ',' := by
  constructor
  · cases hw : isPyWs c with
    | false => rfl
    | true =>
      exfalso
      rcases ws_char_cases c hw with rfl|rfl|rfl|rfl|rfl|rfl <;>
        rcases h with h|h <;> exact absurd h (by decide)
  · intro hc; subst hc
    rcases h with h|h <;> exact absurd h (by decide)

lemma upperL_nan_shape (b : List Char) (h : upperL b = "NAN".data) :
    ∃ c1 c2 c3, b = [c1, c2, c3] ∧
      c1.toUpper = 'N' ∧ c2.toUpper = 'A' ∧ c3.toUpper = 'N' := by
  have hdata : "NAN".data = ['N', 'A', 'N'] := rfl
  rw [hdata] at h
  cases b with
  | nil => simp [upperL] at h
  | cons c1 b1 =>
    cases b1 with
    | nil => simp [upperL] at h
    | cons c2 b2 =>
      cases b2 with
      | nil => simp [upperL] at h
      | cons c3 b3 =>
        cases b3 with
        | cons c4 b4 => simp [upperL] at h
        | nil =>
          simp only [upperL, List.map_cons, List.map_nil, List.cons.injEq,
            and_true] at h
          exact ⟨c1, c2, c3, rfl, h.1, h.2.1, h.2.2⟩

/-! ### Structure of simple reals and `float()` acceptance -/

lemma eatSign_cases (l : List Char) :
    eatSign l = l ∨ ∃ c t, l = c :: t ∧ (c = '+' ∨ c = '-') ∧ eatSign l = t := by
  cases l with
  | nil => exact Or.inl rfl
  | cons c t =>
    by_cases hc : c = '+' ∨ c = '-'
    · exact Or.inr ⟨c, t, rfl, hc, by simp [eatSign, hc]⟩
    · exact Or.inl (by simp [eatSign, hc])

lemma simpleRealBody_class (l1 : List Char) (h : simpleRealBody l1 = true) :
    ∀ c ∈ l1, c.isDigit = true ∨ c = '.' := by
  intro c hc
  unfold simpleRealBody at h
  split at h
  · rw [Bool.and_eq_true] at h
    exact Or.inl (List.all_eq_true.mp h.2 c hc)
  · rename_i ip fp hsp
    rw [Bool.and_eq_true, Bool.and_eq_true, Bool.and_eq_true] at h
    obtain ⟨⟨⟨h1, h2⟩, h3⟩, h4⟩ := h
    obtain ⟨hl, -⟩ := splitOnceL_eq_some '.' l1 ip fp hsp
    subst hl
    rcases List.mem_append.mp hc with hc | hc
    · exact Or.inl (List.all_eq_true.mp h3 c hc)
    · rcases List.mem_cons.mp hc with rfl | hc
      · exact Or.inr rfl
      · exact Or.inl (List.all_eq_true.mp h4 c hc)

lemma isSimpleRealL_class (l : List Char) (h : isSimpleRealL l = true) :
    ∀ c ∈ l, c.isDigit = true ∨ c = '+' ∨ c = '-' ∨ c = '.' := by
  intro c hc
  unfold isSimpleRealL at h
  rcases eatSign_cases l with he | ⟨s, t, hlt, hs, he⟩
  · rw [he] at h
    rcases simpleRealBody_class l h c hc with hd | hd
    · exact Or.inl hd
    · exact Or.inr (Or.inr (Or.inr hd))
  · subst hlt
    rw [he] at h
    rcases List.mem_cons.mp hc with rfl | hc
    · rcases hs with rfl | rfl
      · exact Or.inr (Or.inl rfl)
      · exact Or.inr (Or.inr (Or.inl rfl))
    · rcases simpleRealBody_class t h c hc with hd | hd
      · exact Or.inl hd
      · exact Or.inr (Or.inr (Or.inr hd))

lemma isSimpleRealL_ne_nil (l : List Char) (h : isSimpleRealL l = true) : l ≠ [] := by
  intro hl; subst hl; exact absurd h (by decide)

lemma eatDigitsUnd_digits_then (d r : List Char)
    (hd : ∀ c ∈ d, c.isDigit = true)
    (hr : r = [] ∨ ∃ c r', r = c :: r' ∧ c.isDigit = false ∧ c ≠ '_') :
    eatDigitsUnd (d ++ r) = r := by
  induction d with
  | nil =>
    rcases hr with rfl | ⟨c, r', rfl, h1, h2⟩
    · rfl
    · conv_lhs => unfold eatDigitsUnd
      simp [h1, h2]
  | cons a t ih =>
    have ha : a.isDigit = true := hd a (by simp)
    rw [List.cons_append]
    conv_lhs => unfold eatDigitsUnd
    simp only [ha, if_true]
    exact ih (fun c hc => hd c (by simp [hc]))

lemma eatDigitpart_all_digits (l : List Char) (hne : l ≠ [])
    (h : ∀ c ∈ l, c.isDigit = true) : eatDigitpart l = some [] := by
  cases l with
  | nil => exact absurd rfl hne
  | cons c t =>
    have ht : eatDigitsUnd t = [] := by
      have := eatDigitsUnd_digits_then t [] (fun x hx => h x (by simp [hx])) (Or.inl rfl)
      simpa using this
    simp [eatDigitpart, h c (by simp), ht]

lemma eatDigitpart_digits_dot (ip fp0 : List Char) (hne : ip ≠ [])
    (hip : ∀ c ∈ ip, c.isDigit = true) :
    eatDigitpart (ip ++ '.' :: fp0) = some ('.' :: fp0) := by
  cases ip with
  | nil => exact absurd rfl hne
  | cons c t =>
    have ht : eatDigitsUnd (t ++ '.' :: fp0) = '.' :: fp0 :=
      eatDigitsUnd_digits_then t ('.' :: fp0) (fun x hx => hip x (by simp [hx]))
        (Or.inr ⟨'.', fp0, rfl, by decide, by decide⟩)
    simp [eatDigitpart, hip c (by simp), ht]

lemma eatDecimal_of_simpleBody (l1 : List Char) (h : simpleRealBody l1 = true) :
    eatDecimal l1 = some [] := by
  unfold simpleRealBody at h
  split at h
  · rw [Bool.and_eq_true] at h
    obtain ⟨h1, h2⟩ := h
    have hne : l1 ≠ [] := by
      intro hl; subst hl; exact absurd h1 (by decide)
    simp [eatDecimal,
      eatDigitpart_all_digits l1 hne (List.all_eq_true.mp h2)]
  · rename_i ip fp hsp
    rw [Bool.and_eq_true, Bool.and_eq_true, Bool.and_eq_true] at h
    obtain ⟨⟨⟨h1, h2⟩, h3⟩, h4⟩ := h
    obtain ⟨hl, -⟩ := splitOnceL_eq_some '.' l1 ip fp hsp
    subst hl
    have hipne : ip ≠ [] := by intro h0; subst h0; exact absurd h1 (by decide)
    have hfpne : fp ≠ [] := by intro h0; subst h0; exact absurd h2 (by decide)
    simp [eatDecimal,
      eatDigitpart_digits_dot ip fp hipne (List.all_eq_true.mp h3),
      eatDigitpart_all_digits fp hfpne (List.all_eq_true.mp h4)]

lemma pyFloatCoreL_of_simple (l : List Char) (h : isSimpleRealL l = true) :
    pyFloatCoreL l = true := by
  have hd := eatDecimal_of_simpleBody (eatSign l) h
  unfold pyFloatCoreL
  cases hle : (lowerEq (eatSign l) "inf".data || lowerEq (eatSign l) "infinity".data ||
      lowerEq (eatSign l) "nan".data) with
  | true => simp [hle]
  | false => simp [hle, hd, eatExp]

lemma mem_of_headOpt {l : List Char} {x : Char} (h : l.head? = some x) : x ∈ l := by
  cases l with
  | nil => exact absurd h (by simp)
  | cons c t =>
    rw [List.head?_cons] at h
    injection h with h
    exact h ▸ List.mem_cons_self c t

lemma pyStripL_ws_pad (w1 w2 v : List Char)
    (hw1 : ∀ x ∈ w1, isPyWs x = true) (hw2 : ∀ x ∈ w2, isPyWs x = true)
    (hv : v ≠ []) (hvws : ∀ x ∈ v, isPyWs x = false) :
    pyStripL (w1 ++ v ++ w2) = v :=
  pyStripL_sandwich w1 w2 v hw1 hw2 hv
    (fun x hx => hvws x (mem_of_headOpt hx))
    (fun x hx => hvws x (List.mem_reverse.mp (mem_of_headOpt hx)))

lemma pyStripL_boundary (w1 w2 : List Char) (c : Char) (mid v : List Char)
    (hw1 : ∀ x ∈ w1, isPyWs x = true) (hw2 : ∀ x ∈ w2, isPyWs x = true)
    (hc : isPyWs c = false) (hv : v ≠ []) (hvws : ∀ x ∈ v, isPyWs x = false) :
    pyStripL (w1 ++ (c :: (mid ++ v)) ++ w2) = c :: (mid ++ v) := by
  obtain ⟨d, vr, hvr⟩ : ∃ d vr, v.reverse = d :: vr := by
    cases hx : v.reverse with
    | nil => exact absurd (List.reverse_eq_nil_iff.mp hx) hv
    | cons d vr => exact ⟨d, vr, rfl⟩
  have hdv : d ∈ v := List.mem_reverse.mp (by rw [hvr]; exact List.mem_cons_self d vr)
  have hrev : (c :: (mid ++ v)).reverse = d :: (vr ++ (mid.reverse ++ [c])) := by
    rw [List.reverse_cons, List.reverse_append, hvr]
    simp [List.append_assoc]
  refine pyStripL_sandwich w1 w2 _ hw1 hw2 (by simp) ?_ ?_
  · intro x hx
    rw [List.head?_cons] at hx
    injection hx with hx
    exact hx ▸ hc
  · intro x hx
    rw [hrev, List.head?_cons] at hx
    injection hx with hx
    exact hx ▸ hvws d hdv

/-- Master lemma: a line built from whitespace paddings `s0..s5`, a lux
value text `a`, and an sqm value text `b` (numeric, or any case variant of
`NaN`) parses to exactly `(a, b)`. -/
lemma parse_ok_template (s0 s1 s2 s3 s4 s5 a b : List Char)
    (h0 : ∀ c ∈ s0, isPyWs c = true) (h1 : ∀ c ∈ s1, isPyWs c = true)
    (h2 : ∀ c ∈ s2, isPyWs c = true) (h3 : ∀ c ∈ s3, isPyWs c = true)
    (h4 : ∀ c ∈ s4, isPyWs c = true) (h5 : ∀ c ∈ s5, isPyWs c = true)
    (ha : isSimpleRealL a = true)
    (hb : isSimpleRealL b = true ∨ upperL b = "NAN".data) :
    parse_lux_sqm
      ⟨s0 ++ ("LUX:".data ++ (s1 ++ (a ++ (s2 ++
        (',' :: (s3 ++ ("SQM:".data ++ (s4 ++ (b ++ s5)))))))))⟩ =
      .ok (⟨a⟩, ⟨b⟩) := by
  have hane : a ≠ [] := isSimpleRealL_ne_nil a ha
  have hawsf : ∀ c ∈ a, isPyWs c = false :=
    fun c hc => not_ws_of_class c (isSimpleRealL_class a ha c hc)
  have hacomma : ∀ c ∈ a, c ≠ ',' :=
    fun c hc => ne_comma_of_class c (isSimpleRealL_class a ha c hc)
  have hbfacts : b ≠ [] ∧ ∀ c ∈ b, isPyWs c = false ∧ c ≠ ',' := by
    rcases hb with hb | hb
    · exact ⟨isSimpleRealL_ne_nil b hb, fun c hc =>
        ⟨not_ws_of_class c (isSimpleRealL_class b hb c hc),
         ne_comma_of_class c (isSimpleRealL_class b hb c hc)⟩⟩
    · obtain ⟨c1, c2, c3, rfl, hu1, hu2, hu3⟩ := upperL_nan_shape b hb
      refine ⟨by simp, ?_⟩
      intro c hc
      rcases List.mem_cons.mp hc with rfl | hc
      · exact upper_nan_char_not_ws c (Or.inl hu1)
      rcases List.mem_cons.mp hc with rfl | hc
      · exact upper_nan_char_not_ws c (Or.inr hu2)
      rcases List.mem_cons.mp hc with rfl | hc
      · exact upper_nan_char_not_ws c (Or.inl hu3)
      · exact absurd hc (by simp)
  obtain ⟨hbne, hbwc⟩ := hbfacts
  have hbwsf : ∀ c ∈ b, isPyWs c = false := fun c hc => (hbwc c hc).1
  set L : List Char := s0 ++ ("LUX:".data ++ (s1 ++ (a ++ (s2 ++
    (',' :: (s3 ++ ("SQM:".data ++ (s4 ++ (b ++ s5))))))))) with hLdef
  -- marker containment
  have hmark1 : containsSubL "LUX:".data L = true := containsSubL_embedded _ s0 _
  have hL2 : L = (s0 ++ ("LUX:".data ++ (s1 ++ (a ++ (s2 ++ (',' :: s3)))))) ++
      ("SQM:".data ++ (s4 ++ (b ++ s5))) := by
    rw [hLdef]; simp [List.append_assoc]
  have hmark2 : containsSubL "SQM:".data L = true := by
    rw [hL2]; exact containsSubL_embedded _ _ _
  -- the comma split
  have hLsplit : L = (s0 ++ ("LUX:".data ++ (s1 ++ (a ++ s2)))) ++
      ',' :: (s3 ++ ("SQM:".data ++ (s4 ++ (b ++ s5)))) := by
    rw [hLdef]; simp [List.append_assoc]
  have hLUXcomma : ∀ c ∈ "LUX:".data, c ≠ ',' := by decide
  have hp1comma : ∀ c ∈ s0 ++ ("LUX:".data ++ (s1 ++ (a ++ s2))), c ≠ ',' := by
    intro c hc
    simp only [List.mem_append] at hc
    rcases hc with hc | hc | hc | hc | hc
    · exact ws_ne_comma c (h0 c hc)
    · exact hLUXcomma c hc
    · exact ws_ne_comma c (h1 c hc)
    · exact hacomma c hc
    · exact ws_ne_comma c (h2 c hc)
  have hsplit : splitOnceL ',' L =
      some (s0 ++ ("LUX:".data ++ (s1 ++ (a ++ s2))),
        s3 ++ ("SQM:".data ++ (s4 ++ (b ++ s5)))) := by
    rw [hLsplit]; exact splitOnceL_append ',' _ _ hp1comma
  -- stripping the two parts
  have hLUXhead : "LUX:".data = 'L' :: "UX:".data := rfl
  have hSQMhead : "SQM:".data = 'S' :: "QM:".data := rfl
  have hstrip1 : pyStripL (s0 ++ ("LUX:".data ++ (s1 ++ (a ++ s2)))) =
      "LUX:".data ++ (s1 ++ a) := by
    have e1 : s0 ++ ("LUX:".data ++ (s1 ++ (a ++ s2))) =
        s0 ++ ('L' :: (("UX:".data ++ s1) ++ a)) ++ s2 := by
      simp [hLUXhead, List.append_assoc]
    rw [e1, pyStripL_boundary s0 s2 'L' ("UX:".data ++ s1) a h0 h2 (by decide) hane hawsf]
    simp [hLUXhead, List.append_assoc]
  have hstrip2 : pyStripL (s3 ++ ("SQM:".data ++ (s4 ++ (b ++ s5)))) =
      "SQM:".data ++ (s4 ++ b) := by
    have e2 : s3 ++ ("SQM:".data ++ (s4 ++ (b ++ s5))) =
        s3 ++ ('S' :: (("QM:".data ++ s4) ++ b)) ++ s5 := by
      simp [hSQMhead, List.append_assoc]
    rw [e2, pyStripL_boundary s3 s5 'S' ("QM:".data ++ s4) b h3 h5 (by decide) hbne hbwsf]
    simp [hSQMhead, List.append_assoc]
  -- prefixes hold
  have hpre1 : "LUX:".data.isPrefixOf ("LUX:".data ++ (s1 ++ a)) = true :=
    prefixOf_append_self _ _
  have hpre2 : "SQM:".data.isPrefixOf ("SQM:".data ++ (s4 ++ b)) = true :=
    prefixOf_append_self _ _
  -- the colon splits
  have hcolon1 : afterFirstColon ("LUX:".data ++ (s1 ++ a)) = s1 ++ a := by
    have hx : splitOnceL ':' (['L', 'U', 'X'] ++ ':' :: (s1 ++ a)) =
        some (['L', 'U', 'X'], s1 ++ a) :=
      splitOnceL_append ':' ['L', 'U', 'X'] (s1 ++ a) (by decide)
    unfold afterFirstColon
    rw [show "LUX:".data ++ (s1 ++ a) = ['L', 'U', 'X'] ++ ':' :: (s1 ++ a) from rfl, hx]
  have hcolon2 : afterFirstColon ("SQM:".data ++ (s4 ++ b)) = s4 ++ b := by
    have hx : splitOnceL ':' (['S', 'Q', 'M'] ++ ':' :: (s4 ++ b)) =
        some (['S', 'Q', 'M'], s4 ++ b) :=
      splitOnceL_append ':' ['S', 'Q', 'M'] (s4 ++ b) (by decide)
    unfold afterFirstColon
    rw [show "SQM:".data ++ (s4 ++ b) = ['S', 'Q', 'M'] ++ ':' :: (s4 ++ b) from rfl, hx]
  -- inner strips
  have hstr1 : pyStripL (s1 ++ a) = a := by
    have hpad := pyStripL_ws_pad s1 [] a h1 (by simp) hane hawsf
    simpa using hpad
  have hstr2 : pyStripL (s4 ++ b) = b := by
    have hpad := pyStripL_ws_pad s4 [] b h4 (by simp) hbne hbwsf
    simpa using hpad
  have hstra : pyStripL a = a := pyStripL_of_no_ws a hawsf
  have hstrb : pyStripL b = b := pyStripL_of_no_ws b hbwsf
  have hafloat : pyFloatCoreL a = true := pyFloatCoreL_of_simple a ha
  -- assemble
  unfold parse_lux_sqm
  rw [show (⟨L⟩ : String).data = L from rfl]
  rw [hmark1, hmark2]
  simp only [Bool.not_true, Bool.or_self, Bool.false_eq_true, if_false]
  rw [hsplit]
  simp only [hstrip1, hstrip2, hpre1, hpre2, Bool.not_true, Bool.or_self,
    Bool.false_eq_true, if_false, hcolon1, hcolon2, hstr1, hstr2, hstra, hstrb,
    hafloat]
  rcases hb with hbs | hbn
  · have hbfloat : pyFloatCoreL b = true := pyFloatCoreL_of_simple b hbs
    by_cases hup : upperL b = "NAN".data
    · simp [hup]
    · simp [hup, hbfloat]
  · simp [hbn]

/-- A missing marker (Python `in` check) makes the parser raise the
marker error, whatever else the line looks like. -/
lemma parse_marker_fail (line : String)
    (h : containsSubL "LUX:".data line.data = false ∨
      containsSubL "SQM:".data line.data = false) :
    parse_lux_sqm line = .error ("No LUX:/SQM: markers in line: " ++ line) := by
  unfold parse_lux_sqm
  have hcond : (!containsSubL "LUX:".data line.data ||
      !containsSubL "SQM:".data line.data) = true := by
    rcases h with h | h <;> simp [h]
  simp [hcond]

/-! ### Claim theorems -/

/-- C1: for every input line of the exact form `LUX:<realnumber>,SQM:<realnumber>`
(both fields numeric text), `parse_lux_sqm` succeeds and returns the two
numeric substrings unchanged as text. -/
theorem parse_valid_line_ok (a b : String)
    (ha : isSimpleReal a = true) (hb : isSimpleReal b = true) :
    parse_lux_sqm ("LUX:" ++ a ++ ",SQM:" ++ b) = .ok (a, b) := by
  obtain ⟨la⟩ := a
  obtain ⟨lb⟩ := b
  have ht := parse_ok_template [] [] [] [] [] [] la lb
    (by simp) (by simp) (by simp) (by simp) (by simp) (by simp) ha (Or.inl hb)
  have hdata : ("LUX:" ++ (⟨la⟩ : String) ++ ",SQM:" ++ (⟨lb⟩ : String)) =
      (⟨[] ++ ("LUX:".data ++ ([] ++ (la ++ ([] ++
        (',' :: ([] ++ ("SQM:".data ++ ([] ++ (lb ++ [])))))))))⟩ : String) := by
    show String.mk ((("LUX:".data ++ la) ++ ",SQM:".data) ++ lb) = String.mk _
    exact congrArg String.mk (by
      simp [show ",SQM:".data = ',' :: "SQM:".data from rfl, List.append_assoc])
  rw [hdata]
  exact ht

/-- C1 witness: the spec's concrete example. -/
theorem parse_valid_line_ok_witness :
    parse_lux_sqm "LUX:123.4,SQM:5.6" = .ok ("123.4", "5.6") := by
  have h := parse_valid_line_ok "123.4" "5.6" (by decide) (by decide)
  rw [show ("LUX:" ++ "123.4" ++ ",SQM:" ++ "5.6" : String) = "LUX:123.4,SQM:5.6"
    from rfl] at h
  exact h

/-- C3: for every well-formed line whose sqm candidate equals `NAN`
case-insensitively, `parse_lux_sqm` succeeds and returns the sqm candidate
text verbatim. -/
theorem parse_sqm_nan_ok (a b : String)
    (ha : isSimpleReal a = true) (hb : upperL b.data = "NAN".data) :
    parse_lux_sqm ("LUX:" ++ a ++ ",SQM:" ++ b) = .ok (a, b) := by
  obtain ⟨la⟩ := a
  obtain ⟨lb⟩ := b
  have ht := parse_ok_template [] [] [] [] [] [] la lb
    (by simp) (by simp) (by simp) (by simp) (by simp) (by simp) ha (Or.inr hb)
  have hdata : ("LUX:" ++ (⟨la⟩ : String) ++ ",SQM:" ++ (⟨lb⟩ : String)) =
      (⟨[] ++ ("LUX:".data ++ ([] ++ (la ++ ([] ++
        (',' :: ([] ++ ("SQM:".data ++ ([] ++ (lb ++ [])))))))))⟩ : String) := by
    show String.mk ((("LUX:".data ++ la) ++ ",SQM:".data) ++ lb) = String.mk _
    exact congrArg String.mk (by
      simp [show ",SQM:".data = ',' :: "SQM:".data from rfl, List.append_assoc])
  rw [hdata]
  exact ht

/-- C3 witness: the spec's example and both case variants. -/
theorem parse_sqm_nan_ok_witness :
    parse_lux_sqm "LUX:0.01,SQM:NaN" = .ok ("0.01", "NaN") ∧
    parse_lux_sqm "LUX:0.01,SQM:nan" = .ok ("0.01", "nan") ∧
    parse_lux_sqm "LUX:0.01,SQM:NAN" = .ok ("0.01", "NAN") := by
  refine ⟨?_, ?_, ?_⟩
  · have h := parse_sqm_nan_ok "0.01" "NaN" (by decide) (by decide)
    rw [show ("LUX:" ++ "0.01" ++ ",SQM:" ++ "NaN" : String) = "LUX:0.01,SQM:NaN"
      from rfl] at h
    exact h
  · have h := parse_sqm_nan_ok "0.01" "nan" (by decide) (by decide)
    rw [show ("LUX:" ++ "0.01" ++ ",SQM:" ++ "nan" : String) = "LUX:0.01,SQM:nan"
      from rfl] at h
    exact h
  · have h := parse_sqm_nan_ok "0.01" "NAN" (by decide) (by decide)
    rw [show ("LUX:" ++ "0.01" ++ ",SQM:" ++ "NAN" : String) = "LUX:0.01,SQM:NAN"
      from rfl] at h
    exact h

/-- C6: whitespace around the fields or around the numeric values is
tolerated, and the returned candidates have that whitespace trimmed off. -/
theorem parse_whitespace_tolerant (s0 s1 s2 s3 s4 s5 a b : String)
    (hw0 : ∀ c ∈ s0.data, isPyWs c = true) (hw1 : ∀ c ∈ s1.data, isPyWs c = true)
    (hw2 : ∀ c ∈ s2.data, isPyWs c = true) (hw3 : ∀ c ∈ s3.data, isPyWs c = true)
    (hw4 : ∀ c ∈ s4.data, isPyWs c = true) (hw5 : ∀ c ∈ s5.data, isPyWs c = true)
    (ha : isSimpleReal a = true) (hb : isSimpleReal b = true) :
    parse_lux_sqm (s0 ++ "LUX:" ++ s1 ++ a ++ s2 ++ "," ++ s3 ++ "SQM:" ++ s4 ++ b ++ s5) =
      .ok (a, b) := by
  obtain ⟨l0⟩ := s0
  obtain ⟨l1⟩ := s1
  obtain ⟨l2⟩ := s2
  obtain ⟨l3⟩ := s3
  obtain ⟨l4⟩ := s4
  obtain ⟨l5⟩ := s5
  obtain ⟨la⟩ := a
  obtain ⟨lb⟩ := b
  have ht := parse_ok_template l0 l1 l2 l3 l4 l5 la lb hw0 hw1 hw2 hw3 hw4 hw5
    ha (Or.inl hb)
  have hdata : ((⟨l0⟩ : String) ++ "LUX:" ++ ⟨l1⟩ ++ ⟨la⟩ ++ ⟨l2⟩ ++ "," ++ ⟨l3⟩ ++
      "SQM:" ++ ⟨l4⟩ ++ ⟨lb⟩ ++ ⟨l5⟩) =
      (⟨l0 ++ ("LUX:".data ++ (l1 ++ (la ++ (l2 ++
        (',' :: (l3 ++ ("SQM:".data ++ (l4 ++ (lb ++ l5)))))))))⟩ : String) := by
    show String.mk ((((((((((l0 ++ "LUX:".data) ++ l1) ++ la) ++ l2) ++ ",".data) ++
      l3) ++ "SQM:".data) ++ l4) ++ lb) ++ l5) = String.mk _
    exact congrArg String.mk (by
      simp [show ",".data = [','] from rfl, List.append_assoc])
  rw [hdata]
  exact ht

/-- C6 witness: the spec's whitespace example. -/
theorem parse_whitespace_tolerant_witness :
    parse_lux_sqm "LUX: 1.0 , SQM: 2.0" = .ok ("1.0", "2.0") := by
  have h := parse_whitespace_tolerant "" " " " " " " " " "" "1.0" "2.0"
    (by decide) (by decide) (by decide) (by decide) (by decide) (by decide)
    (by decide) (by decide)
  rw [show ("" ++ "LUX:" ++ " " ++ "1.0" ++ " " ++ "," ++ " " ++ "SQM:" ++ " " ++
    "2.0" ++ "" : String) = "LUX: 1.0 , SQM: 2.0" from rfl] at h
  exact h

/-- C2 counterexample: the claim says a lux candidate of `NaN` is rejected,
but CPython `float("NaN")` succeeds, so the parser accepts the line. -/
theorem parse_lux_nan_accepted :
    parse_lux_sqm "LUX:NaN,SQM:1.0" = .ok ("NaN", "1.0") := by rfl

/-- C2 (amended): a line whose lux candidate is not accepted by Python
`float()` (which accepts `nan`/`inf`/`infinity` in any case) never parses
successfully. -/
theorem parse_fails_of_lux_not_float (line : String)
    (h : pyFloatAccepts (luxCandidate line) = false) :
    exceptOk (parse_lux_sqm line) = false := by
  have hlc : ∀ p1 p2, splitOnceL ',' line.data = some (p1, p2) →
      luxCandidate line = ⟨pyStripL (afterFirstColon (pyStripL p1))⟩ := by
    intro p1 p2 heq
    unfold luxCandidate
    rw [heq]
    rfl
  unfold parse_lux_sqm
  split
  · rfl
  · split
    · rfl
    · rename_i p1 p2 heq
      have h' : pyFloatCoreL (pyStripL (pyStripL (afterFirstColon (pyStripL p1)))) =
          false := by
        rw [hlc p1 p2 heq] at h
        exact h
      simp only [h', Bool.not_false, if_true]
      split
      · rfl
      · simp [exceptOk]

/-- C2 witness: the spec's example `LUX:abc,SQM:1.0` has a non-numeric lux
candidate and parsing fails. -/
theorem parse_fails_of_lux_not_float_witness :
    pyFloatAccepts (luxCandidate "LUX:abc,SQM:1.0") = false ∧
    exceptOk (parse_lux_sqm "LUX:abc,SQM:1.0") = false :=
  ⟨by decide, parse_fails_of_lux_not_float "LUX:abc,SQM:1.0" (by decide)⟩

/-- C4: when the line splits at a comma but the first trimmed part does not
start with `LUX:` or the second does not start with `SQM:`, parsing fails. -/
theorem parse_fails_wrong_order (line : String) (p1 p2 : List Char)
    (hsp : splitOnceL ',' line.data = some (p1, p2))
    (h : "LUX:".data.isPrefixOf (pyStripL p1) = false ∨
      "SQM:".data.isPrefixOf (pyStripL p2) = false) :
    exceptOk (parse_lux_sqm line) = false := by
  unfold parse_lux_sqm
  split
  · rfl
  · rw [hsp]
    have hcond : (!("LUX:".data.isPrefixOf (pyStripL p1)) ||
        !("SQM:".data.isPrefixOf (pyStripL p2))) = true := by
      rcases h with h | h <;> simp [h]
    simp [hcond, exceptOk]

/-- C4 witness: swapped field order fails even with both markers present. -/
theorem parse_fails_wrong_order_witness :
    exceptOk (parse_lux_sqm "SQM:5.6,LUX:123.4") = false :=
  parse_fails_wrong_order "SQM:5.6,LUX:123.4" "SQM:5.6".data "LUX:123.4".data
    (by decide) (Or.inl (by decide))

/-- C5: with both markers present but no comma, the split yields a single
part and parsing fails with the wrong-field-count error (`len(parts)` is 1). -/
theorem parse_fails_no_comma (line : String)
    (h1 : containsSubL "LUX:".data line.data = true)
    (h2 : containsSubL "SQM:".data line.data = true)
    (hsp : splitOnceL ',' line.data = none) :
    parse_lux_sqm line =
      .error ("Wrong number of fields (expected 2, got 1). Line: " ++ line) := by
  unfold parse_lux_sqm
  simp [h1, h2, hsp]

/-- C5 witness: the spec's example with `;` instead of `,`. -/
theorem parse_fails_no_comma_witness :
    parse_lux_sqm "LUX:1.0;SQM:1.0" =
      .error "Wrong number of fields (expected 2, got 1). Line: LUX:1.0;SQM:1.0" := by
  have h := parse_fails_no_comma "LUX:1.0;SQM:1.0" (by decide) (by decide) (by decide)
  rw [show ("Wrong number of fields (expected 2, got 1). Line: " ++ "LUX:1.0;SQM:1.0" :
    String) = "Wrong number of fields (expected 2, got 1). Line: LUX:1.0;SQM:1.0"
    from rfl] at h
  exact h

/-- C7: a line missing the `LUX:` substring or the `SQM:` substring fails
with the missing-markers error. -/
theorem parse_fails_missing_markers (line : String)
    (h : containsSubL "LUX:".data line.data = false ∨
      containsSubL "SQM:".data line.data = false) :
    parse_lux_sqm line = .error ("No LUX:/SQM: markers in line: " ++ line) :=
  parse_marker_fail line h

/-- C7 witness: the empty line fails. -/
theorem parse_fails_missing_markers_witness :
    parse_lux_sqm "" = .error "No LUX:/SQM: markers in line: " := by
  have h := parse_fails_missing_markers "" (Or.inl (by decide))
  rw [show ("No LUX:/SQM: markers in line: " ++ "" : String) =
    "No LUX:/SQM: markers in line: " from rfl] at h
  exact h

/-- C8: requesting a reading with no open connection warns "not connected",
writes zero bytes, performs no read, and leaves the display fields
unchanged. -/
theorem get_reading_not_connected (ser : Option SerialConn) (resp : String)
    (g : GuiState)
    (h : ser = none ∨ ∃ c, ser = some c ∧ c.is_open = false) :
    get_reading ser resp g = ⟨[], false, [.warnNotConnected], g⟩ := by
  rcases h with rfl | ⟨c, rfl, hc⟩
  · rfl
  · unfold get_reading
    simp [hc]

/-- C8 witness: no connection handle at all. -/
theorem get_reading_not_connected_witness :
    get_reading none "LUX:1.0,SQM:2.0" ⟨"", "--", "--"⟩ =
      ⟨[], false, [.warnNotConnected], ⟨"", "--", "--"⟩⟩ :=
  get_reading_not_connected none "LUX:1.0,SQM:2.0" ⟨"", "--", "--"⟩ (Or.inl rfl)

/-- C9: over an open connection, an empty response line (timeout) produces
the timeout warning and resets the three display fields to their sentinels
(`<no data>` and `--`/`--`), after the command bytes `R\n` were written. -/
theorem get_reading_timeout (c : SerialConn) (g : GuiState)
    (hc : c.is_open = true) :
    get_reading (some c) "" g =
      ⟨[82, 10], true, [.warnTimeout], ⟨"<no data>", "--", "--"⟩⟩ := by
  unfold get_reading
  simp [hc, pyStrip, pyStripL]

/-- C9 witness: a concrete open connection and display state. -/
theorem get_reading_timeout_witness :
    get_reading (some ⟨true⟩) "" ⟨"x", "1.0", "2.0"⟩ =
      ⟨[82, 10], true, [.warnTimeout], ⟨"<no data>", "--", "--"⟩⟩ :=
  get_reading_timeout ⟨true⟩ ⟨"x", "1.0", "2.0"⟩ rfl

/-- C10: the `LUX:`/`SQM:` marker and prefix checks are case-sensitive —
any line not containing the exact-case markers fails, and lowercase-marker
lines fail concretely — while the sqm value `NaN` is compared
case-insensitively (both `nan` and `NAN` are accepted). -/
theorem parse_markers_case_sensitive :
    (∀ line : String, containsSubL "LUX:".data line.data = false ∨
        containsSubL "SQM:".data line.data = false →
      exceptOk (parse_lux_sqm line) = false) ∧
    parse_lux_sqm "lux:1.0,sqm:2.0" =
      .error "No LUX:/SQM: markers in line: lux:1.0,sqm:2.0" ∧
    parse_lux_sqm "lux:LUX:1.0,sqm:SQM:2.0" =
      .error "Line does not start with LUX: and SQM:. Line: lux:LUX:1.0,sqm:SQM:2.0" ∧
    parse_lux_sqm "LUX:1.0,SQM:nan" = .ok ("1.0", "nan") ∧
    parse_lux_sqm "LUX:1.0,SQM:NAN" = .ok ("1.0", "NAN") := by
  refine ⟨?_, by rfl, by rfl, by rfl, by rfl⟩
  intro line h
  rw [parse_marker_fail line h]
  rfl

/-- C10 witness: a lowercase `lux:` marker with correct-case `SQM:` fails. -/
theorem parse_markers_case_sensitive_witness :
    exceptOk (parse_lux_sqm "lux:1.0,SQM:2.0") = false :=
  parse_markers_case_sensitive.1 "lux:1.0,SQM:2.0" (Or.inl (by decide))

end SQMGui
